import Mathlib

set_option maxRecDepth 100000

/-!
Shallow embedding of `aws_lambda_powertools/utilities/idempotency/persistence/base.py`:
the idempotency `DataRecord` model, its derived status, the hashing scheme
(`json.dumps` serialization fed to a configurable digest, md5 by default), the
local-cache read/write helpers and the public persistence-layer operations
(`save_success`, `save_inprogress`, `delete_record`, `get_record`).

Machine-level conventions: Python ints are modelled as Lean `Int`/`Nat`
(32-bit md5 words as `Nat` reduced `% 2 ^ 32`), Python `None`-able fields as
`Option`, raised exceptions as `Except` values, and the key-value stores
(the durable store and the local cache) as association lists.
-/

/-- JSON-serializable values as passed to `json.dumps` in `_generate_hash`.
Objects keep their key insertion order, exactly as Python `dict`s do. -/
inductive JsonValue where
  | null : JsonValue
  | bool : Bool → JsonValue
  | int : Int → JsonValue
  | str : String → JsonValue
  | arr : List JsonValue → JsonValue
  | obj : List (String × JsonValue) → JsonValue
deriving Repr

/-- Four-digit lowercase hex, as in Python json's `\uXXXX` escapes. -/
def hex4 (n : Nat) : String :=
  let digit := fun (k : Nat) => (Nat.digitChar (n / 16 ^ k % 16)).toString
  digit 3 ++ digit 2 ++ digit 1 ++ digit 0

/-- Escape a single character the way `json.dumps` (default `ensure_ascii=True`)
does inside string literals. -/
def jsonEscapeChar (c : Char) : String :=
  if c = '"' then "\\\""
  else if c = '\\' then "\\\\"
  else if c = '\n' then "\\n"
  else if c = '\t' then "\\t"
  else if c = '\r' then "\\r"
  else if c.toNat = 8 then "\\b"
  else if c.toNat = 12 then "\\f"
  else if 0x20 ≤ c.toNat ∧ c.toNat ≤ 0x7e then c.toString
  else if c.toNat < 0x10000 then "\\u" ++ hex4 c.toNat
  else
    let m := c.toNat - 0x10000
    "\\u" ++ hex4 (0xd800 + m / 0x400) ++ "\\u" ++ hex4 (0xdc00 + m % 0x400)

/-- A JSON string literal: quotes around the escaped characters. -/
def jsonQuote (s : String) : String :=
  "\"" ++ s.data.foldl (fun acc c => acc ++ jsonEscapeChar c) "" ++ "\""

mutual
/-- `json.dumps(data, cls=Encoder)` as called by `_generate_hash`: Python's
default separators `", "` and `": "`, keys in insertion order (no `sort_keys`).
The custom `Encoder` only changes how non-JSON-native Python objects
(`Decimal`) are serialized; on the JSON value domain modelled here it is
plain `json.dumps`. -/
def jsonDumps : JsonValue → String
  | .null => "null"
  | .bool true => "true"
  | .bool false => "false"
  | .int n => toString n
  | .str s => jsonQuote s
  | .arr xs => "[" ++ jsonDumpsArr xs ++ "]"
  | .obj kvs => "\x7b" ++ jsonDumpsObj kvs ++ "\x7d"

/-- Comma-joined serialization of JSON array elements. -/
def jsonDumpsArr : List JsonValue → String
  | [] => ""
  | [x] => jsonDumps x
  | x :: y :: xs => jsonDumps x ++ ", " ++ jsonDumpsArr (y :: xs)

/-- Comma-joined serialization of JSON object entries. -/
def jsonDumpsObj : List (String × JsonValue) → String
  | [] => ""
  | [kv] => jsonQuote kv.1 ++ ": " ++ jsonDumps kv.2
  | kv :: kv2 :: kvs =>
      jsonQuote kv.1 ++ ": " ++ jsonDumps kv.2 ++ ", " ++ jsonDumpsObj (kv2 :: kvs)
end

/-- First binding of a key in an association list (Python `dict` lookup;
dict keys are unique). -/
def lookupJson (k : String) : List (String × JsonValue) → Option JsonValue
  | [] => none
  | kv :: rest => if kv.1 = k then some kv.2 else lookupJson k rest

/-- Every key of the first object literal occurs in the second. -/
def keysIncluded (xs ys : List (String × JsonValue)) : Bool :=
  xs.all fun kv => ys.any fun kv2 => kv2.1 == kv.1

mutual
/-- Python `==` on parsed JSON values: numbers, strings, booleans and null
compare by value, arrays pointwise, objects as finite maps (same key set,
equal value at every key), ignoring insertion order. -/
def structEq : JsonValue → JsonValue → Bool
  | .null, .null => true
  | .bool a, .bool b => a == b
  | .int a, .int b => a == b
  | .str a, .str b => a == b
  | .arr xs, .arr ys => structEqArr xs ys
  | .obj xs, .obj ys => keysIncluded xs ys && keysIncluded ys xs && structEqObj xs ys
  | _, _ => false

/-- Pointwise structural equality of JSON arrays. -/
def structEqArr : List JsonValue → List JsonValue → Bool
  | [], [] => true
  | x :: xs, y :: ys => structEq x y && structEqArr xs ys
  | _, _ => false

/-- Every entry of the first object equals the second object's value at the
same key. -/
def structEqObj : List (String × JsonValue) → List (String × JsonValue) → Bool
  | [], _ => true
  | kv :: rest, ys =>
      (match lookupJson kv.1 ys with
       | some w => structEq kv.2 w
       | none => false) && structEqObj rest ys
end

/-! ### MD5 (`hashlib.md5`, the default `hash_function`) over `Nat` bytes -/

def UINT32_MOD : Nat := 4294967296

/-- 32-bit left rotation on a `Nat` below `2 ^ 32`. -/
def rotl32 (x s : Nat) : Nat := ((x <<< s) % UINT32_MOD) ||| (x >>> (32 - s))

/-- 32-bit bitwise complement of a `Nat` below `2 ^ 32`. -/
def not32 (x : Nat) : Nat := (UINT32_MOD - 1) - x

/-- Per-round left-rotation amounts (RFC 1321). -/
def md5Shifts : List Nat :=
  [7, 12, 17, 22, 7, 12, 17, 22, 7, 12, 17, 22, 7, 12, 17, 22,
   5, 9, 14, 20, 5, 9, 14, 20, 5, 9, 14, 20, 5, 9, 14, 20,
   4, 11, 16, 23, 4, 11, 16, 23, 4, 11, 16, 23, 4, 11, 16, 23,
   6, 10, 15, 21, 6, 10, 15, 21, 6, 10, 15, 21, 6, 10, 15, 21]

/-- Per-round additive constants `floor(2^32 * |sin(i+1)|)` (RFC 1321). -/
def md5Sines : List Nat :=
  [0xd76aa478, 0xe8c7b756, 0x242070db, 0xc1bdceee,
   0xf57c0faf, 0x4787c62a, 0xa8304613, 0xfd469501,
   0x698098d8, 0x8b44f7af, 0xffff5bb1, 0x895cd7be,
   0x6b901122, 0xfd987193, 0xa679438e, 0x49b40821,
   0xf61e2562, 0xc040b340, 0x265e5a51, 0xe9b6c7aa,
   0xd62f105d, 0x02441453, 0xd8a1e681, 0xe7d3fbc8,
   0x21e1cde6, 0xc33707d6, 0xf4d50d87, 0x455a14ed,
   0xa9e3e905, 0xfcefa3f8, 0x676f02d9, 0x8d2a4c8a,
   0xfffa3942, 0x8771f681, 0x6d9d6122, 0xfde5380c,
   0xa4beea44, 0x4bdecfa9, 0xf6bb4b60, 0xbebfbc70,
   0x289b7ec6, 0xeaa127fa, 0xd4ef3085, 0x04881d05,
   0xd9d4d039, 0xe6db99e5, 0x1fa27cf8, 0xc4ac5665,
   0xf4292244, 0x432aff97, 0xab9423a7, 0xfc93a039,
   0x655b59c3, 0x8f0ccc92, 0xffeff47d, 0x85845dd1,
   0x6fa87e4f, 0xfe2ce6e0, 0xa3014314, 0x4e0811a1,
   0xf7537e82, 0xbd3af235, 0x2ad7d2bb, 0xeb86d391]

/-- `count` little-endian bytes of `n`. -/
def natLEBytes (n count : Nat) : List Nat :=
  (List.range count).map fun i => (n >>> (8 * i)) % 256

/-- MD5 padding: `0x80`, zeros to 56 mod 64, then the 64-bit LE bit length. -/
def md5Pad (msg : List Nat) : List Nat :=
  let len := msg.length
  let zeros := (56 + 64 - (len + 1) % 64) % 64
  msg ++ [0x80] ++ List.replicate zeros 0 ++ natLEBytes ((8 * len) % 2 ^ 64) 8

/-- Groups of 4 bytes into little-endian 32-bit words. -/
def bytesToWords : List Nat → List Nat
  | b0 :: b1 :: b2 :: b3 :: rest =>
      (b0 + 256 * b1 + 65536 * b2 + 16777216 * b3) :: bytesToWords rest
  | _ => []

/-- Split a word list into blocks of 16 (fuel-structural; fuel is the length
of the list, which strictly bounds the number of blocks). -/
def chunks16Fuel : Nat → List Nat → List (List Nat)
  | 0, _ => []
  | _, [] => []
  | fuel + 1, ws => ws.take 16 :: chunks16Fuel fuel (ws.drop 16)

def chunks16 (ws : List Nat) : List (List Nat) := chunks16Fuel ws.length ws

/-- One MD5 round: `i` is the round index, `M` the 16 message words. -/
def md5Step (M : List Nat) (st : Nat × Nat × Nat × Nat) (i : Nat) :
    Nat × Nat × Nat × Nat :=
  let a := st.1
  let b := st.2.1
  let c := st.2.2.1
  let d := st.2.2.2
  let fg : Nat × Nat :=
    if i < 16 then ((b &&& c) ||| (not32 b &&& d), i)
    else if i < 32 then ((d &&& b) ||| (not32 d &&& c), (5 * i + 1) % 16)
    else if i < 48 then (b ^^^ c ^^^ d, (3 * i + 5) % 16)
    else (c ^^^ (b ||| not32 d), (7 * i) % 16)
  let f := (fg.1 + a + md5Sines.getD i 0 + M.getD fg.2 0) % UINT32_MOD
  (d, (b + rotl32 f (md5Shifts.getD i 0)) % UINT32_MOD, b, c)

/-- Process one 64-byte block (16 words) into the running state. -/
def md5Block (st : Nat × Nat × Nat × Nat) (M : List Nat) :
    Nat × Nat × Nat × Nat :=
  let r := (List.range 64).foldl (md5Step M) st
  ((st.1 + r.1) % UINT32_MOD, (st.2.1 + r.2.1) % UINT32_MOD,
   (st.2.2.1 + r.2.2.1) % UINT32_MOD, (st.2.2.2 + r.2.2.2) % UINT32_MOD)

def md5Init : Nat × Nat × Nat × Nat := (0x67452301, 0xefcdab89, 0x98badcfe, 0x10325476)

/-- MD5 digest (16 bytes) of a byte message. -/
def md5Bytes (msg : List Nat) : List Nat :=
  let st := (chunks16 (bytesToWords (md5Pad msg))).foldl md5Block md5Init
  natLEBytes st.1 4 ++ natLEBytes st.2.1 4 ++ natLEBytes st.2.2.1 4 ++ natLEBytes st.2.2.2 4

/-- Two-digit lowercase hex of a byte. -/
def byteHex (b : Nat) : String :=
  (Nat.digitChar (b / 16 % 16)).toString ++ (Nat.digitChar (b % 16)).toString

/-- UTF-8 encoding of one character (`str.encode()` in Python). -/
def utf8EncodeCharNat (c : Char) : List Nat :=
  let n := c.toNat
  if n < 0x80 then [n]
  else if n < 0x800 then [0xc0 ||| (n >>> 6), 0x80 ||| (n &&& 0x3f)]
  else if n < 0x10000 then
    [0xe0 ||| (n >>> 12), 0x80 ||| ((n >>> 6) &&& 0x3f), 0x80 ||| (n &&& 0x3f)]
  else
    [0xf0 ||| (n >>> 18), 0x80 ||| ((n >>> 12) &&& 0x3f),
     0x80 ||| ((n >>> 6) &&& 0x3f), 0x80 ||| (n &&& 0x3f)]

/-- UTF-8 bytes of a string (`s.encode()`). -/
def utf8Bytes (s : String) : List Nat :=
  s.data.foldl (fun acc c => acc ++ utf8EncodeCharNat c) []

/-- `hashlib.md5(s.encode()).hexdigest()`: lowercase hex MD5 of a string. -/
def md5Hex (s : String) : String :=
  (md5Bytes (utf8Bytes s)).foldl (fun acc b => acc ++ byteHex b) ""

/-! ### jmespath expressions

The source compiles jmespath strings and calls `.search(event)`.  jmespath is
an external library; the fragment the idempotency layer relies on is dotted
field access, modelled here as a path of field names.  A query that matches
nothing (missing field, or a non-object on the path) yields Python `None`,
i.e. `JsonValue.null`, which `json.dumps` serializes as `"null"`. -/
def jmesSearch : List String → JsonValue → JsonValue
  | [], v => v
  | k :: ks, .obj kvs =>
      match lookupJson k kvs with
      | some v => jmesSearch ks v
      | none => .null
  | _ :: _, _ => .null

/-! ### The idempotency record and its derived status -/

/-- `STATUS_CONSTANTS.values()`: the runtime set-membership check in
`DataRecord.status` accepts all three constants, `"EXPIRED"` included. -/
def STATUS_CONSTANTS_values : List String := ["INPROGRESS", "COMPLETED", "EXPIRED"]

/-- The exceptions the persistence layer raises
(`IdempotencyInvalidStatusError`, `IdempotencyItemAlreadyExistsError`,
`IdempotencyValidationError`, `IdempotencyItemNotFoundError`). -/
inductive IdempotencyError where
  | invalidStatus : String → IdempotencyError
  | itemAlreadyExists : IdempotencyError
  | validationError : IdempotencyError
  | itemNotFound : IdempotencyError
deriving Repr, DecidableEq

/-- `DataRecord` from `base.py`.  Field `status_raw` is the stored `_status`
string (Python default `""`), `expiry_timestamp` the Python `int = None`
field, `payload_hash` the Python `str = None` field. -/
structure DataRecord where
  idempotency_key : String
  status_raw : String
  expiry_timestamp : Option Int
  response_data : String
  payload_hash : Option String
deriving Repr, DecidableEq

/-- `DataRecord.is_expired`:
`bool(self.expiry_timestamp and int(datetime.datetime.now().timestamp()) > self.expiry_timestamp)`.
`now` is the current unix-seconds clock, passed explicitly.  Python `and`
short-circuits on a falsy left operand, so both `None` and `0` make the
record non-expired regardless of `now`. -/
def DataRecord.is_expired (r : DataRecord) (now : Int) : Bool :=
  match r.expiry_timestamp with
  | none => false
  | some e => decide (e ≠ 0) && decide (now > e)

/-- `DataRecord.status`: `EXPIRED` when `is_expired`; otherwise the stored
`_status` when it is one of `STATUS_CONSTANTS.values()`; otherwise raise
`IdempotencyInvalidStatusError(self._status)`. -/
def DataRecord.status (r : DataRecord) (now : Int) : Except IdempotencyError String :=
  if r.is_expired now then .ok "EXPIRED"
  else if r.status_raw ∈ STATUS_CONSTANTS_values then .ok r.status_raw
  else .error (.invalidStatus r.status_raw)

/-! ### Association-list stores

The durable store and the local cache both map an idempotency key to a
record.  `alPut` is Python dict assignment (replace-or-append), `alDel`
removes the binding, `alGet` is keyed lookup.  The local cache in the source
is an `LRUDict` from `aws_lambda_powertools.shared.cache_dict`, repository
code outside the provided sources; per the spec (§4.2) it is a bounded
key → record map with LRU eviction.  Capacity-driven LRU eviction only ever
removes entries, which no claim here depends on, so the cache is modelled as
the plain key → record map. -/
abbrev RecordMap := List (String × DataRecord)

def alGet : RecordMap → String → Option DataRecord
  | [], _ => none
  | kv :: rest, k => if kv.1 = k then some kv.2 else alGet rest k

def alPut : RecordMap → String → DataRecord → RecordMap
  | [], k, v => [(k, v)]
  | kv :: rest, k, v => if kv.1 = k then (k, v) :: rest else kv :: alPut rest k v

def alDel : RecordMap → String → RecordMap
  | [], _ => []
  | kv :: rest, k => if kv.1 = k then alDel rest k else kv :: alDel rest k

/-! ### The persistence layer -/

/-- Construction-time configuration of `BasePersistenceLayer.__init__`.
Empty jmespath strings (falsy, meaning "not configured") are `none`.
`hash_function` is `getattr(hashlib, hash_function)(...).hexdigest()`
folded into one digest function `String → String`; the default is
`"md5"`, i.e. `md5Hex`. -/
structure PersistenceConfig where
  event_key_jmespath : Option (List String)
  payload_validation_jmespath : Option (List String)
  expires_after_seconds : Int
  use_local_cache : Bool
  hash_function : String → String

/-- `self.payload_validation_enabled`, set when a validation jmespath was
supplied. -/
def payload_validation_enabled (cfg : PersistenceConfig) : Bool :=
  cfg.payload_validation_jmespath.isSome

/-- `_generate_hash`: `self.hash_function(json.dumps(data, cls=Encoder).encode()).hexdigest()`. -/
def generate_hash (cfg : PersistenceConfig) (data : JsonValue) : String :=
  cfg.hash_function (jsonDumps data)

/-- `_get_hashed_idempotency_key`: search the event with the key jmespath
when one is configured (the whole event otherwise) and hash the result. -/
def get_hashed_idempotency_key (cfg : PersistenceConfig) (event : JsonValue) : String :=
  let data := match cfg.event_key_jmespath with
    | some q => jmesSearch q event
    | none => event
  generate_hash cfg data

/-- `_get_hashed_payload`: `""` when payload validation is disabled, else the
hash of the validation-jmespath search result. -/
def get_hashed_payload (cfg : PersistenceConfig) (event : JsonValue) : String :=
  match cfg.payload_validation_jmespath with
  | none => ""
  | some q => generate_hash cfg (jmesSearch q event)

/-- `_validate_payload`: when validation is enabled, raise
`IdempotencyValidationError` if the stored `payload_hash` differs from the
freshly hashed payload of the event. -/
def validate_payload (cfg : PersistenceConfig) (event : JsonValue) (r : DataRecord) :
    Except IdempotencyError Unit :=
  if payload_validation_enabled cfg then
    if r.payload_hash = some (get_hashed_payload cfg event) then .ok ()
    else .error .validationError
  else .ok ()

/-- `_get_expiry_timestamp`: `int((now + expires_after_seconds).timestamp())`. -/
def get_expiry_timestamp (cfg : PersistenceConfig) (now : Int) : Int :=
  now + cfg.expires_after_seconds

/-- `_save_to_cache`: no-op when the cache is disabled; otherwise skip the
record when `data_record.status` (the derived status, which can raise
`IdempotencyInvalidStatusError`) is `"INPROGRESS"`, else store it under
`data_record.idempotency_key`. -/
def save_to_cache (cfg : PersistenceConfig) (now : Int) (cache : RecordMap)
    (r : DataRecord) : Except IdempotencyError RecordMap :=
  if cfg.use_local_cache = false then .ok cache
  else
    match r.status now with
    | .error e => .error e
    | .ok st => if st = "INPROGRESS" then .ok cache else .ok (alPut cache r.idempotency_key r)

/-- `_retrieve_from_cache`: `None` when the cache is disabled or misses;
a non-expired cached record is returned as a hit; an expired one is deleted
from the cache and treated as a miss.  Returns the hit and the new cache. -/
def retrieve_from_cache (cfg : PersistenceConfig) (now : Int) (cache : RecordMap)
    (idempotency_key : String) : Option DataRecord × RecordMap :=
  if cfg.use_local_cache = false then (none, cache)
  else
    match alGet cache idempotency_key with
    | none => (none, cache)
    | some r =>
        if r.is_expired now = false then (some r, cache)
        else (none, alDel cache idempotency_key)

/-- `_delete_from_cache`: no-op when the cache is disabled, else
`del self._cache[idempotency_key]`.  `LRUDict`'s deletion is repository code
outside the provided sources; modelled from the spec (§4.2 `delete(key)`,
§4.4 "evict from local cache ... always safe to call even if no record
exists") as unconditional removal of the binding. -/
def delete_from_cache (cfg : PersistenceConfig) (cache : RecordMap)
    (idempotency_key : String) : RecordMap :=
  if cfg.use_local_cache = false then cache else alDel cache idempotency_key

/-! ### The abstract store operations

`_get_record`, `_put_record`, `_update_record`, `_delete_record` are abstract
methods; their behaviour is modelled from their docstrings and the spec's
Persistence Contract (§4.3): fetch fails with not-found when absent; insert
fails with already-exists when a non-expired record is present; update is an
unconditional overwrite; delete is an unconditional, absence-tolerant
removal. -/

/-- Modelled from the spec: `_get_record` — fetch by key, raising
`IdempotencyItemNotFoundError` when no record exists. -/
def store_get_record (store : RecordMap) (idempotency_key : String) :
    Except IdempotencyError DataRecord :=
  match alGet store idempotency_key with
  | some r => .ok r
  | none => .error .itemNotFound

/-- Modelled from the spec: `_put_record` — insert-if-absent-or-expired,
raising `IdempotencyItemAlreadyExistsError` when a non-expired record for the
same key is present. -/
def store_put_record (now : Int) (store : RecordMap) (r : DataRecord) :
    Except IdempotencyError RecordMap :=
  match alGet store r.idempotency_key with
  | some existing =>
      if existing.is_expired now then .ok (alPut store r.idempotency_key r)
      else .error .itemAlreadyExists
  | none => .ok (alPut store r.idempotency_key r)

/-- Modelled from the spec: `_update_record` — unconditional overwrite. -/
def store_update_record (store : RecordMap) (r : DataRecord) : RecordMap :=
  alPut store r.idempotency_key r

/-- Modelled from the spec: `_delete_record` — unconditional removal,
tolerant of the key already being absent. -/
def store_delete_record (store : RecordMap) (r : DataRecord) : RecordMap :=
  alDel store r.idempotency_key

/-! ### The public persistence-layer operations

Each operation takes the explicit clock `now`, the store and the cache, and
returns its result (or raised error) with the new store and cache. -/

/-- The COMPLETED record `save_success` builds: derived key, serialized
result, fresh expiry, derived payload fingerprint. -/
def completed_record (cfg : PersistenceConfig) (now : Int) (event result : JsonValue) :
    DataRecord :=
  { idempotency_key := get_hashed_idempotency_key cfg event
    status_raw := "COMPLETED"
    expiry_timestamp := some (get_expiry_timestamp cfg now)
    response_data := jsonDumps result
    payload_hash := some (get_hashed_payload cfg event) }

/-- The INPROGRESS record `save_inprogress` builds: derived key, fresh
expiry, derived payload fingerprint, no response data. -/
def inprogress_record (cfg : PersistenceConfig) (now : Int) (event : JsonValue) :
    DataRecord :=
  { idempotency_key := get_hashed_idempotency_key cfg event
    status_raw := "INPROGRESS"
    expiry_timestamp := some (get_expiry_timestamp cfg now)
    response_data := ""
    payload_hash := some (get_hashed_payload cfg event) }

/-- The bare record `delete_record` builds
(`DataRecord(idempotency_key=...)`, other fields at their Python defaults). -/
def key_only_record (cfg : PersistenceConfig) (event : JsonValue) : DataRecord :=
  { idempotency_key := get_hashed_idempotency_key cfg event
    status_raw := ""
    expiry_timestamp := none
    response_data := ""
    payload_hash := none }

/-- `save_success`: build a COMPLETED record with the serialized result and a
fresh expiry, `_update_record` it, then `_save_to_cache` it. -/
def save_success (cfg : PersistenceConfig) (now : Int) (store cache : RecordMap)
    (event result : JsonValue) : Except IdempotencyError Unit × RecordMap × RecordMap :=
  let r := completed_record cfg now event result
  let store2 := store_update_record store r
  match save_to_cache cfg now cache r with
  | .ok cache2 => (.ok (), store2, cache2)
  | .error e => (.error e, store2, cache)

/-- `save_inprogress`: build an INPROGRESS record with a fresh expiry; raise
`IdempotencyItemAlreadyExistsError` on a live cache hit, else `_put_record`. -/
def save_inprogress (cfg : PersistenceConfig) (now : Int) (store cache : RecordMap)
    (event : JsonValue) : Except IdempotencyError Unit × RecordMap × RecordMap :=
  let r := inprogress_record cfg now event
  let hit := retrieve_from_cache cfg now cache r.idempotency_key
  match hit.1 with
  | some _ => (.error .itemAlreadyExists, store, hit.2)
  | none =>
      match store_put_record now store r with
      | .ok store2 => (.ok (), store2, hit.2)
      | .error e => (.error e, store, hit.2)

/-- `delete_record`: build the bare key-carrying record, `_delete_record` it
from the store, then `_delete_from_cache` the key. -/
def delete_record (cfg : PersistenceConfig) (store cache : RecordMap)
    (event : JsonValue) : Except IdempotencyError Unit × RecordMap × RecordMap :=
  let r := key_only_record cfg event
  let store2 := store_delete_record store r
  let cache2 := delete_from_cache cfg cache r.idempotency_key
  (.ok (), store2, cache2)

/-- `get_record`: derive the key; on a live cache hit validate the payload
and return the cached record without touching the store; on a miss fetch
from the store, `_save_to_cache` the fetched record, then validate the
payload and return it. -/
def get_record (cfg : PersistenceConfig) (now : Int) (store cache : RecordMap)
    (event : JsonValue) : Except IdempotencyError DataRecord × RecordMap × RecordMap :=
  let key := get_hashed_idempotency_key cfg event
  let hit := retrieve_from_cache cfg now cache key
  match hit.1 with
  | some cached =>
      match validate_payload cfg event cached with
      | .ok _ => (.ok cached, store, hit.2)
      | .error e => (.error e, store, hit.2)
  | none =>
      match store_get_record store key with
      | .error e => (.error e, store, hit.2)
      | .ok r =>
          match save_to_cache cfg now hit.2 r with
          | .error e => (.error e, store, hit.2)
          | .ok cache2 =>
              match validate_payload cfg event r with
              | .ok _ => (.ok r, store, cache2)
              | .error e => (.error e, store, cache2)

/-! ### Operation sequences and cache-on/cache-off comparison (for §5's
"disabling the cache changes latency, never correctness") -/

/-- The same configuration with the local cache switched on or off. -/
def withCache (cfg : PersistenceConfig) (b : Bool) : PersistenceConfig :=
  { cfg with use_local_cache := b }

/-- Store well-formedness: every stored record carries its own storage key in
`idempotency_key` and a raw status among the persisted-valid constants. -/
def StoreWF (store : RecordMap) : Prop :=
  ∀ kv ∈ store, kv.2.status_raw ∈ STATUS_CONSTANTS_values ∧ kv.2.idempotency_key = kv.1

/-- The local cache is a subset of the durable store: every cached binding is
also the store's binding for that key. -/
def CacheSub (cache store : RecordMap) : Prop :=
  ∀ k r, alGet cache k = some r → alGet store k = some r

/-- One call against the persistence layer: which public operation, at which
clock value, with which event (and result, for `save_success`). -/
inductive IdemOp where
  | opSaveInprogress : Int → JsonValue → IdemOp
  | opSaveSuccess : Int → JsonValue → JsonValue → IdemOp
  | opDeleteRecord : JsonValue → IdemOp
  | opGetRecord : Int → JsonValue → IdemOp

/-- The caller-observable outcome of one call: the raised error, or the
returned record (`get_record`), or nothing (the `None`-returning writes). -/
abbrev IdemOutcome := Except IdempotencyError (Option DataRecord)

/-- Run one call, producing its observable outcome and the new store/cache. -/
def runOp (cfg : PersistenceConfig) (store cache : RecordMap) :
    IdemOp → IdemOutcome × RecordMap × RecordMap
  | .opSaveInprogress now e =>
      match save_inprogress cfg now store cache e with
      | (.ok _, s, c) => (.ok none, s, c)
      | (.error err, s, c) => (.error err, s, c)
  | .opSaveSuccess now e res =>
      match save_success cfg now store cache e res with
      | (.ok _, s, c) => (.ok none, s, c)
      | (.error err, s, c) => (.error err, s, c)
  | .opDeleteRecord e =>
      match delete_record cfg store cache e with
      | (.ok _, s, c) => (.ok none, s, c)
      | (.error err, s, c) => (.error err, s, c)
  | .opGetRecord now e =>
      match get_record cfg now store cache e with
      | (.ok r, s, c) => (.ok (some r), s, c)
      | (.error err, s, c) => (.error err, s, c)

/-- Run a sequence of calls, collecting the outcome of each. -/
def runOps (cfg : PersistenceConfig) (store cache : RecordMap) :
    List IdemOp → List IdemOutcome × RecordMap × RecordMap
  | [] => ([], store, cache)
  | op :: ops =>
      let r := runOp cfg store cache op
      let rest := runOps cfg r.2.1 r.2.2 ops
      (r.1 :: rest.1, rest.2)

/-! ### Concrete instances used by the per-claim theorems -/

/-- The default construction of `BasePersistenceLayer.__init__`: no jmespath
expressions, one-hour TTL, local cache disabled, md5 digest. -/
def defaultConfig : PersistenceConfig :=
  { event_key_jmespath := none
    payload_validation_jmespath := none
    expires_after_seconds := 3600
    use_local_cache := false
    hash_function := md5Hex }

/-- The default configuration with the local cache enabled. -/
def cacheOnConfig : PersistenceConfig :=
  { defaultConfig with use_local_cache := true }

/-- Cache enabled and payload validation configured on field `"p"`. -/
def validationCacheConfig : PersistenceConfig :=
  { defaultConfig with
      use_local_cache := true
      payload_validation_jmespath := some ["p"] }

/-- Key extraction configured on field `"a"`. -/
def keyQueryConfig : PersistenceConfig :=
  { defaultConfig with event_key_jmespath := some ["a"] }

/-- Event, derived key, corrupt-status record and store separating the
cache-on from the cache-off run of `get_record`. -/
def eventC8 : JsonValue := .obj [("k", .str "v")]

def keyC8 : String := get_hashed_idempotency_key defaultConfig eventC8

def unknownStatusRecord : DataRecord :=
  { idempotency_key := keyC8
    status_raw := "UNKNOWN"
    expiry_timestamp := none
    response_data := ""
    payload_hash := none }

def storeC8 : RecordMap := [(keyC8, unknownStatusRecord)]

/-- Event, derived key, fingerprint-mismatching IN_PROGRESS record and store
for the cache-write-before-validation behaviour of `get_record`. -/
def eventC10 : JsonValue := .obj [("p", .int 1)]

def keyC10 : String := get_hashed_idempotency_key validationCacheConfig eventC10

def recC10 : DataRecord :=
  { idempotency_key := keyC10
    status_raw := "INPROGRESS"
    expiry_timestamp := none
    response_data := ""
    payload_hash := none }

def storeC10 : RecordMap := [(keyC10, recC10)]

/-- A second event and a mismatching COMPLETED record for the same
behaviour when the fetched record is cacheable. -/
def eventC10w : JsonValue := .obj [("p", .int 2)]

def keyC10w : String := get_hashed_idempotency_key validationCacheConfig eventC10w

def recC10w : DataRecord :=
  { idempotency_key := keyC10w
    status_raw := "COMPLETED"
    expiry_timestamp := none
    response_data := ""
    payload_hash := none }

def storeC10w : RecordMap := [(keyC10w, recC10w)]

/-! ### Association-list and invariant lemmas -/

lemma alGet_put_self (l : RecordMap) (k : String) (v : DataRecord) :
    alGet (alPut l k v) k = some v := by
  induction l with
  | nil => simp [alPut, alGet]
  | cons kv rest ih =>
      by_cases h : kv.1 = k <;> simp [alPut, alGet, h, ih]

lemma alGet_put_ne (l : RecordMap) (k k2 : String) (v : DataRecord) (h : k2 ≠ k) :
    alGet (alPut l k v) k2 = alGet l k2 := by
  induction l with
  | nil => simp [alPut, alGet, Ne.symm h]
  | cons kv rest ih =>
      obtain ⟨k1, v1⟩ := kv
      by_cases hk : k1 = k
      · subst hk
        simp [alPut, alGet, Ne.symm h]
      · simp only [alPut, if_neg hk, alGet]
        by_cases hk2 : k1 = k2 <;> simp [hk2, ih]

lemma alGet_del_self (l : RecordMap) (k : String) : alGet (alDel l k) k = none := by
  induction l with
  | nil => simp [alDel, alGet]
  | cons kv rest ih =>
      obtain ⟨k1, v1⟩ := kv
      by_cases h : k1 = k <;> simp [alDel, alGet, h, ih]

lemma alGet_del_ne (l : RecordMap) (k k2 : String) (h : k2 ≠ k) :
    alGet (alDel l k) k2 = alGet l k2 := by
  induction l with
  | nil => simp [alDel, alGet]
  | cons kv rest ih =>
      obtain ⟨k1, v1⟩ := kv
      by_cases hk : k1 = k
      · subst hk
        simp [alDel, alGet, Ne.symm h, ih]
      · simp only [alDel, if_neg hk, alGet]
        by_cases hk2 : k1 = k2 <;> simp [hk2, ih]

lemma alGet_mem (l : RecordMap) (k : String) (r : DataRecord)
    (h : alGet l k = some r) : (k, r) ∈ l := by
  induction l with
  | nil => simp [alGet] at h
  | cons kv rest ih =>
      obtain ⟨k1, v1⟩ := kv
      by_cases hk : k1 = k
      · subst hk
        simp only [alGet, if_pos rfl] at h
        cases h
        exact List.mem_cons_self _ _
      · simp only [alGet, if_neg hk] at h
        exact List.mem_cons_of_mem _ (ih h)

lemma storeWF_get (s : RecordMap) (k : String) (r : DataRecord)
    (hwf : StoreWF s) (h : alGet s k = some r) :
    r.status_raw ∈ STATUS_CONSTANTS_values ∧ r.idempotency_key = k :=
  hwf (k, r) (alGet_mem s k r h)

lemma storeWF_put (s : RecordMap) (r : DataRecord) (hwf : StoreWF s)
    (hraw : r.status_raw ∈ STATUS_CONSTANTS_values) :
    StoreWF (alPut s r.idempotency_key r) := by
  intro kv hkv
  induction s with
  | nil =>
      simp [alPut] at hkv
      subst hkv
      exact ⟨hraw, rfl⟩
  | cons kv2 rest ih =>
      simp only [alPut] at hkv
      split at hkv
      · rcases List.mem_cons.1 hkv with h | h
        · subst h; exact ⟨hraw, rfl⟩
        · exact hwf kv (List.mem_cons_of_mem _ h)
      · rcases List.mem_cons.1 hkv with h | h
        · subst h; exact hwf kv (List.mem_cons_self _ _)
        · exact ih (fun p hp => hwf p (List.mem_cons_of_mem _ hp)) h

lemma storeWF_del (s : RecordMap) (k : String) (hwf : StoreWF s) :
    StoreWF (alDel s k) := by
  intro kv hkv
  induction s with
  | nil => simp [alDel] at hkv
  | cons kv2 rest ih =>
      simp only [alDel] at hkv
      split at hkv
      · exact ih (fun p hp => hwf p (List.mem_cons_of_mem _ hp)) hkv
      · rcases List.mem_cons.1 hkv with h | h
        · subst h; exact hwf kv (List.mem_cons_self _ _)
        · exact ih (fun p hp => hwf p (List.mem_cons_of_mem _ hp)) h

lemma cacheSub_nil (s : RecordMap) : CacheSub [] s := by
  intro k r h
  simp [alGet] at h

lemma cacheSub_del_cache (c s : RecordMap) (k : String) (hsub : CacheSub c s) :
    CacheSub (alDel c k) s := by
  intro k2 r h
  by_cases hk : k2 = k
  · subst hk; rw [alGet_del_self] at h; cases h
  · rw [alGet_del_ne c k k2 hk] at h
    exact hsub k2 r h

lemma cacheSub_del_both (c s : RecordMap) (k : String) (hsub : CacheSub c s) :
    CacheSub (alDel c k) (alDel s k) := by
  intro k2 r h
  by_cases hk : k2 = k
  · subst hk; rw [alGet_del_self] at h; cases h
  · rw [alGet_del_ne c k k2 hk] at h
    rw [alGet_del_ne s k k2 hk]
    exact hsub k2 r h

lemma cacheSub_put_both (c s : RecordMap) (k : String) (r : DataRecord)
    (hsub : CacheSub c s) : CacheSub (alPut c k r) (alPut s k r) := by
  intro k2 r2 h
  by_cases hk : k2 = k
  · subst hk
    rw [alGet_put_self] at h
    rw [alGet_put_self]
    exact h
  · rw [alGet_put_ne c k k2 r hk] at h
    rw [alGet_put_ne s k k2 r hk]
    exact hsub k2 r2 h

lemma cacheSub_put_cache_hit (c s : RecordMap) (k : String) (r : DataRecord)
    (hsub : CacheSub c s) (hs : alGet s k = some r) :
    CacheSub (alPut c k r) s := by
  intro k2 r2 h
  by_cases hk : k2 = k
  · subst hk
    rw [alGet_put_self] at h
    cases h
    exact hs
  · rw [alGet_put_ne c k k2 r hk] at h
    exact hsub k2 r2 h

lemma cacheSub_put_store (c s : RecordMap) (k : String) (r : DataRecord)
    (hsub : CacheSub c s) (hc : alGet c k = none) :
    CacheSub c (alPut s k r) := by
  intro k2 r2 h
  by_cases hk : k2 = k
  · subst hk; rw [hc] at h; cases h
  · rw [alGet_put_ne s k k2 r hk]
    exact hsub k2 r2 h

/-! ### Configuration-flag stability and derived-status lemmas -/

@[simp] lemma withCache_flag (cfg : PersistenceConfig) (b : Bool) :
    (withCache cfg b).use_local_cache = b := rfl

@[simp] lemma get_hashed_idempotency_key_withCache (cfg : PersistenceConfig)
    (b : Bool) (e : JsonValue) :
    get_hashed_idempotency_key (withCache cfg b) e = get_hashed_idempotency_key cfg e := rfl

@[simp] lemma get_hashed_payload_withCache (cfg : PersistenceConfig)
    (b : Bool) (e : JsonValue) :
    get_hashed_payload (withCache cfg b) e = get_hashed_payload cfg e := rfl

@[simp] lemma validate_payload_withCache (cfg : PersistenceConfig)
    (b : Bool) (e : JsonValue) (r : DataRecord) :
    validate_payload (withCache cfg b) e r = validate_payload cfg e r := rfl

@[simp] lemma get_expiry_timestamp_withCache (cfg : PersistenceConfig)
    (b : Bool) (now : Int) :
    get_expiry_timestamp (withCache cfg b) now = get_expiry_timestamp cfg now := rfl

@[simp] lemma save_to_cache_off (cfg : PersistenceConfig) (now : Int)
    (c : RecordMap) (r : DataRecord)
    (h : cfg.use_local_cache = false) :
    save_to_cache cfg now c r = .ok c := by
  simp [save_to_cache, h]

@[simp] lemma retrieve_from_cache_off (cfg : PersistenceConfig) (now : Int)
    (c : RecordMap) (k : String)
    (h : cfg.use_local_cache = false) :
    retrieve_from_cache cfg now c k = (none, c) := by
  simp [retrieve_from_cache, h]

@[simp] lemma delete_from_cache_off (cfg : PersistenceConfig)
    (c : RecordMap) (k : String)
    (h : cfg.use_local_cache = false) :
    delete_from_cache cfg c k = c := by
  simp [delete_from_cache, h]

lemma status_ok_of_raw_valid (r : DataRecord) (now : Int)
    (h : r.status_raw ∈ STATUS_CONSTANTS_values) :
    r.status now = .ok (if r.is_expired now then "EXPIRED" else r.status_raw) := by
  unfold DataRecord.status
  by_cases hx : r.is_expired now <;> simp [hx, h]

lemma status_expired (r : DataRecord) (now : Int) (h : r.is_expired now = true) :
    r.status now = .ok "EXPIRED" := by
  unfold DataRecord.status
  simp [h]

lemma save_to_cache_on (cfg : PersistenceConfig) (now : Int) (c : RecordMap)
    (r : DataRecord) (hon : cfg.use_local_cache = true)
    (hraw : r.status_raw ∈ STATUS_CONSTANTS_values) :
    save_to_cache cfg now c r =
      .ok (if r.is_expired now = false ∧ r.status_raw = "INPROGRESS" then c
           else alPut c r.idempotency_key r) := by
  unfold save_to_cache
  rw [hon]
  rw [status_ok_of_raw_valid r now hraw]
  by_cases hx : r.is_expired now
  · simp [hx]
  · by_cases hip : r.status_raw = "INPROGRESS" <;> simp [hx, hip]

/-! ### Claims C1 and C3: the derived status -/

/-- C1, counterexample: the stored status `"EXPIRED"` lies outside
{INPROGRESS, COMPLETED}, yet reading the record's status does not raise
`IdempotencyInvalidStatusError` — it returns `"EXPIRED"` as a valid state,
because the membership check is against all of `STATUS_CONSTANTS.values()`. -/
theorem C1_counterexample :
    "EXPIRED" ∉ ["INPROGRESS", "COMPLETED"]
  ∧ DataRecord.status ⟨"key", "EXPIRED", none, "", none⟩ 0 = .ok "EXPIRED" := by
  constructor
  · decide
  · rfl

/-- C1, amended: reading a fetched record's status signals
`IdempotencyInvalidStatusError` exactly when the record is not expired (per
its timestamp) and its raw stored status lies outside all three constants
{INPROGRESS, COMPLETED, EXPIRED}; an expired record reads `"EXPIRED"`
without any error regardless of its raw status. -/
theorem C1_amended (r : DataRecord) (now : Int) :
    DataRecord.status r now = .error (.invalidStatus r.status_raw) ↔
      r.is_expired now = false
      ∧ r.status_raw ≠ "INPROGRESS" ∧ r.status_raw ≠ "COMPLETED" ∧ r.status_raw ≠ "EXPIRED" := by
  unfold DataRecord.status
  by_cases hx : r.is_expired now
  · simp [hx]
  · rw [Bool.not_eq_true] at hx
    by_cases hm : r.status_raw ∈ STATUS_CONSTANTS_values
    · have hd : r.status_raw = "INPROGRESS" ∨ r.status_raw = "COMPLETED"
          ∨ r.status_raw = "EXPIRED" := by
        simpa [STATUS_CONSTANTS_values] using hm
      rcases hd with h | h | h <;> simp [hx, hm, h, STATUS_CONSTANTS_values]
    · have hd : r.status_raw ≠ "INPROGRESS" ∧ r.status_raw ≠ "COMPLETED"
          ∧ r.status_raw ≠ "EXPIRED" := by
        simpa [STATUS_CONSTANTS_values, not_or] using hm
      simp [hx, hm, hd]

/-- C3, counterexample: a record whose expiry timestamp is set to `0`, with
`0 < now`, is not derived EXPIRED (Python truthiness treats a `0` timestamp
as absent), contradicting "a record whose expiry timestamp is less than now
is always EXPIRED". -/
theorem C3_counterexample :
    (⟨"key", "COMPLETED", some 0, "", none⟩ : DataRecord).expiry_timestamp = some 0
  ∧ (0 : Int) < 10
  ∧ DataRecord.status ⟨"key", "COMPLETED", some 0, "", none⟩ 10 = .ok "COMPLETED" := by
  refine ⟨rfl, by decide, rfl⟩

/-- C3, amended: for records whose raw status is one of the two
persisted-valid values, the derived status is `"EXPIRED"` exactly when the
expiry timestamp is set to a nonzero value strictly below `now`, and equals
the raw stored status otherwise; in particular a record with no expiry
timestamp — or with the falsy timestamp `0` — is never derived EXPIRED. -/
theorem C3_amended (r : DataRecord) (now : Int)
    (h : r.status_raw = "INPROGRESS" ∨ r.status_raw = "COMPLETED") :
    DataRecord.status r now = .ok (if r.is_expired now then "EXPIRED" else r.status_raw)
  ∧ (r.is_expired now = true ↔ ∃ e, r.expiry_timestamp = some e ∧ e ≠ 0 ∧ now > e) := by
  constructor
  · have hm : r.status_raw ∈ STATUS_CONSTANTS_values := by
      rcases h with h | h <;> simp [STATUS_CONSTANTS_values, h]
    exact status_ok_of_raw_valid r now hm
  · unfold DataRecord.is_expired
    cases hx : r.expiry_timestamp with
    | none => simp
    | some e => simp

/-- C3, witness: a COMPLETED record with expiry 3 read at time 10 is derived
EXPIRED, through `C3_amended`. -/
theorem C3_amended_witness :
    ((⟨"key", "COMPLETED", some 3, "", none⟩ : DataRecord).status_raw = "INPROGRESS"
      ∨ (⟨"key", "COMPLETED", some 3, "", none⟩ : DataRecord).status_raw = "COMPLETED")
  ∧ (DataRecord.status ⟨"key", "COMPLETED", some 3, "", none⟩ 10
        = .ok (if (⟨"key", "COMPLETED", some 3, "", none⟩ : DataRecord).is_expired 10
               then "EXPIRED" else (⟨"key", "COMPLETED", some 3, "", none⟩ : DataRecord).status_raw)
      ∧ ((⟨"key", "COMPLETED", some 3, "", none⟩ : DataRecord).is_expired 10 = true ↔
          ∃ e, (⟨"key", "COMPLETED", some 3, "", none⟩ : DataRecord).expiry_timestamp = some e
            ∧ e ≠ 0 ∧ (10 : Int) > e)) :=
  ⟨Or.inr rfl, C3_amended ⟨"key", "COMPLETED", some 3, "", none⟩ 10 (Or.inr rfl)⟩

/-! ### Claim C4: what the cache-saving operation stores -/

/-- C4, counterexample: a record whose raw stored status is `"INPROGRESS"`
but whose expiry timestamp has passed is placed in the cache, because
`_save_to_cache` tests the derived status (here `"EXPIRED"`), not the raw
one. -/
theorem C4_counterexample :
    (⟨"key", "INPROGRESS", some 1, "", none⟩ : DataRecord).status_raw = "INPROGRESS"
  ∧ save_to_cache cacheOnConfig 10 [] ⟨"key", "INPROGRESS", some 1, "", none⟩
      = .ok [("key", ⟨"key", "INPROGRESS", some 1, "", none⟩)] := by
  refine ⟨rfl, ?_⟩
  rfl

/-- C4, amended: the cache-saving operation never stores a record whose
derived status is `"INPROGRESS"` — for any configuration, clock and cache it
returns the cache unchanged on such records; a raw-INPROGRESS record whose
expiry has passed derives as EXPIRED and is cached. -/
theorem C4_amended (cfg : PersistenceConfig) (now : Int) (cache : RecordMap)
    (r : DataRecord) (h : DataRecord.status r now = .ok "INPROGRESS") :
    save_to_cache cfg now cache r = .ok cache := by
  unfold save_to_cache
  by_cases hc : cfg.use_local_cache = false <;> simp [hc, h]

/-- C4, witness: saving a live (non-expired) IN_PROGRESS record leaves the
cache unchanged, through `C4_amended`. -/
theorem C4_amended_witness :
    DataRecord.status ⟨"key", "INPROGRESS", some 100, "", none⟩ 0 = .ok "INPROGRESS"
  ∧ save_to_cache cacheOnConfig 0 [] ⟨"key", "INPROGRESS", some 100, "", none⟩ = .ok [] :=
  ⟨rfl, C4_amended cacheOnConfig 0 [] ⟨"key", "INPROGRESS", some 100, "", none⟩ rfl⟩

/-! ### Claim C5: delete_record on an absent key -/

lemma alDel_of_get_none (l : RecordMap) (k : String) (h : alGet l k = none) :
    alDel l k = l := by
  induction l with
  | nil => rfl
  | cons kv rest ih =>
      obtain ⟨k1, v1⟩ := kv
      by_cases hk : k1 = k
      · simp [alGet, hk] at h
      · simp only [alGet, if_neg hk] at h
        simp [alDel, hk, ih h]

/-- C5: with the local cache enabled and the derived key absent from both
the store and the cache, `delete_record` completes without error (returning
`None`), leaving the store and the cache exactly as they were — in
particular the key is still absent from both. -/
theorem C5_delete_absent (cfg : PersistenceConfig) (store cache : RecordMap)
    (event : JsonValue)
    (hon : cfg.use_local_cache = true)
    (hs : alGet store (get_hashed_idempotency_key cfg event) = none)
    (hc : alGet cache (get_hashed_idempotency_key cfg event) = none) :
    (delete_record cfg store cache event).1 = .ok ()
  ∧ (delete_record cfg store cache event).2.1 = store
  ∧ (delete_record cfg store cache event).2.2 = cache := by
  unfold delete_record store_delete_record delete_from_cache
  refine ⟨rfl, ?_, ?_⟩
  · exact alDel_of_get_none store _ hs
  · simp only [hon]
    simp only [Bool.true_eq_false, if_false]
    exact alDel_of_get_none cache _ hc

/-- C5, witness: deleting with an empty store and cache, through
`C5_delete_absent`. -/
theorem C5_delete_absent_witness :
    cacheOnConfig.use_local_cache = true
  ∧ alGet [] (get_hashed_idempotency_key cacheOnConfig JsonValue.null) = none
  ∧ ((delete_record cacheOnConfig [] [] JsonValue.null).1 = .ok ()
      ∧ (delete_record cacheOnConfig [] [] JsonValue.null).2.1 = []
      ∧ (delete_record cacheOnConfig [] [] JsonValue.null).2.2 = []) :=
  ⟨rfl, rfl, C5_delete_absent cacheOnConfig [] [] JsonValue.null rfl rfl rfl⟩

/-! ### Claim C6: fingerprint validation -/

/-- C6: `_validate_payload` raises `IdempotencyValidationError` exactly when
payload validation is enabled and the stored fingerprint differs from the
freshly derived fingerprint of the event; with validation disabled the
derived fingerprint is `""` and validation never raises. -/
theorem C6_validation (cfg : PersistenceConfig) (event : JsonValue) (r : DataRecord) :
    (validate_payload cfg event r = .error .validationError ↔
        payload_validation_enabled cfg = true
      ∧ r.payload_hash ≠ some (get_hashed_payload cfg event))
  ∧ (payload_validation_enabled cfg = false →
        get_hashed_payload cfg event = "" ∧ validate_payload cfg event r = .ok ()) := by
  constructor
  · unfold validate_payload
    by_cases he : payload_validation_enabled cfg
    · by_cases hm : r.payload_hash = some (get_hashed_payload cfg event) <;> simp [he, hm]
    · simp [he]
  · intro he
    cases hq : cfg.payload_validation_jmespath with
    | some q => simp [payload_validation_enabled, hq] at he
    | none =>
        exact ⟨by simp [get_hashed_payload, hq],
               by simp [validate_payload, payload_validation_enabled, hq]⟩

/-- C6, witness: with validation on `"p"` and a stored fingerprint of
`None`, validation raises, through `C6_validation`. -/
theorem C6_validation_witness :
    validate_payload validationCacheConfig (.obj [("p", .str "x")])
      ⟨"key", "COMPLETED", none, "", none⟩ = .error .validationError :=
  (C6_validation validationCacheConfig (.obj [("p", .str "x")])
      ⟨"key", "COMPLETED", none, "", none⟩).1.mpr ⟨rfl, by simp⟩

/-! ### Claim C7: key derivation when the query matches nothing -/

/-- C7: when the configured key-extraction query matches nothing in the
event, the derived idempotency key is the hash of the absent value
(`None`/null) — derivation does not fail — and any two events on which the
query matches nothing derive the same idempotency key. -/
theorem C7_unmatched_query (cfg : PersistenceConfig) (q : List String)
    (e1 e2 : JsonValue)
    (hq : cfg.event_key_jmespath = some q)
    (h1 : jmesSearch q e1 = JsonValue.null)
    (h2 : jmesSearch q e2 = JsonValue.null) :
    get_hashed_idempotency_key cfg e1 = generate_hash cfg JsonValue.null
  ∧ get_hashed_idempotency_key cfg e1 = get_hashed_idempotency_key cfg e2 := by
  unfold get_hashed_idempotency_key
  rw [hq]
  simp [h1, h2]

/-- C7, witness: two events without field `"a"` derive the same key — the
hash of null — through `C7_unmatched_query`. -/
theorem C7_unmatched_query_witness :
    keyQueryConfig.event_key_jmespath = some ["a"]
  ∧ jmesSearch ["a"] (.obj [("b", .int 1)]) = JsonValue.null
  ∧ jmesSearch ["a"] (.obj []) = JsonValue.null
  ∧ (get_hashed_idempotency_key keyQueryConfig (.obj [("b", .int 1)])
        = generate_hash keyQueryConfig JsonValue.null
      ∧ get_hashed_idempotency_key keyQueryConfig (.obj [("b", .int 1)])
        = get_hashed_idempotency_key keyQueryConfig (.obj [])) :=
  ⟨rfl, rfl, rfl,
   C7_unmatched_query keyQueryConfig ["a"] (.obj [("b", .int 1)]) (.obj []) rfl rfl rfl⟩

/-! ### Claim C9: cache reads and expiry -/

/-- C9, counterexample: a cached record whose derived status is `"EXPIRED"`
because its raw stored status is `"EXPIRED"` (its timestamp not having
passed) is returned as a cache hit and is not evicted — `_retrieve_from_cache`
tests `is_expired`, not the derived status. -/
theorem C9_counterexample :
    DataRecord.status ⟨"key", "EXPIRED", none, "", none⟩ 10 = .ok "EXPIRED"
  ∧ retrieve_from_cache cacheOnConfig 10
        [("key", ⟨"key", "EXPIRED", none, "", none⟩)] "key"
      = (some ⟨"key", "EXPIRED", none, "", none⟩,
         [("key", ⟨"key", "EXPIRED", none, "", none⟩)]) := by
  refine ⟨rfl, ?_⟩
  rfl

/-- C9, amended: with the cache enabled, a cache read of a record whose
expiry timestamp has passed (`is_expired`) evicts the entry and reports a
miss; a cached record that is not `is_expired` — even one whose derived
status is `"EXPIRED"` via its raw status — is returned as a hit with the
cache unchanged. -/
theorem C9_amended (cfg : PersistenceConfig) (now : Int) (cache : RecordMap)
    (key : String) (r : DataRecord)
    (hon : cfg.use_local_cache = true)
    (hget : alGet cache key = some r) :
    (r.is_expired now = true →
        retrieve_from_cache cfg now cache key = (none, alDel cache key))
  ∧ (r.is_expired now = false →
        retrieve_from_cache cfg now cache key = (some r, cache)) := by
  unfold retrieve_from_cache
  rw [hon]
  constructor <;> intro hx <;> simp [hget, hx]

/-- C9, witness: a timestamp-expired cached record is evicted and reported
as a miss, through `C9_amended`. -/
theorem C9_amended_witness :
    cacheOnConfig.use_local_cache = true
  ∧ alGet [("key", ⟨"key", "COMPLETED", some 1, "", none⟩)] "key"
      = some ⟨"key", "COMPLETED", some 1, "", none⟩
  ∧ (⟨"key", "COMPLETED", some 1, "", none⟩ : DataRecord).is_expired 10 = true
  ∧ retrieve_from_cache cacheOnConfig 10
        [("key", ⟨"key", "COMPLETED", some 1, "", none⟩)] "key"
      = (none, alDel [("key", ⟨"key", "COMPLETED", some 1, "", none⟩)] "key") :=
  ⟨rfl, rfl, rfl,
   (C9_amended cacheOnConfig 10 [("key", ⟨"key", "COMPLETED", some 1, "", none⟩)]
      "key" ⟨"key", "COMPLETED", some 1, "", none⟩ rfl rfl).1 rfl⟩

/-! ### Claim C10: cache write precedes fingerprint validation in get_record -/

/-- C10, counterexample: `get_record` fetching a fingerprint-mismatching
record from the store raises the validation error, but when the fetched
record's derived status is `"INPROGRESS"` the record is NOT in the cache
after the error — `_save_to_cache` skipped it — so the claimed "the
mismatching record remains in the cache" fails. -/
theorem C10_counterexample :
    payload_validation_enabled validationCacheConfig = true
  ∧ recC10.payload_hash ≠ some (get_hashed_payload validationCacheConfig eventC10)
  ∧ (get_record validationCacheConfig 0 storeC10 [] eventC10).1 = .error .validationError
  ∧ (get_record validationCacheConfig 0 storeC10 [] eventC10).2.2 = [] := by
  refine ⟨rfl, by simp [recC10], ?_, ?_⟩ <;>
    simp [get_record, retrieve_from_cache, storeC10, store_get_record, alGet, keyC10,
      save_to_cache, validationCacheConfig, defaultConfig, DataRecord.status,
      DataRecord.is_expired, recC10, STATUS_CONSTANTS_values, validate_payload,
      payload_validation_enabled]

/-- C10, amended: when `get_record` (cache enabled, cache miss) fetches a
fingerprint-mismatching record from the store whose derived status is a
valid status other than `"INPROGRESS"`, the record is written into the local
cache before the validation error is raised, and remains cached after it. -/
theorem C10_amended (cfg : PersistenceConfig) (now : Int) (store cache : RecordMap)
    (event : JsonValue) (r : DataRecord) (st : String)
    (hon : cfg.use_local_cache = true)
    (hen : payload_validation_enabled cfg = true)
    (hmiss : alGet cache (get_hashed_idempotency_key cfg event) = none)
    (hstore : alGet store (get_hashed_idempotency_key cfg event) = some r)
    (hst : DataRecord.status r now = .ok st)
    (hnotip : st ≠ "INPROGRESS")
    (hmm : r.payload_hash ≠ some (get_hashed_payload cfg event)) :
    (get_record cfg now store cache event).1 = .error .validationError
  ∧ alGet (get_record cfg now store cache event).2.2 r.idempotency_key = some r := by
  have hret : retrieve_from_cache cfg now cache (get_hashed_idempotency_key cfg event)
      = (none, cache) := by
    unfold retrieve_from_cache
    rw [hon]
    simp [hmiss]
  have hfetch : store_get_record store (get_hashed_idempotency_key cfg event) = .ok r := by
    unfold store_get_record
    rw [hstore]
  have hsave : save_to_cache cfg now cache r = .ok (alPut cache r.idempotency_key r) := by
    unfold save_to_cache
    rw [hon, hst]
    simp [hnotip]
  have hval : validate_payload cfg event r = .error .validationError := by
    unfold validate_payload
    rw [hen]
    simp [hmm]
  constructor <;> simp [get_record, hret, hfetch, hsave, hval, alGet_put_self]

/-- C10, witness: a fingerprint-mismatching COMPLETED record fetched from
the store is still in the cache after the validation error, through
`C10_amended`. -/
theorem C10_amended_witness :
    validationCacheConfig.use_local_cache = true
  ∧ payload_validation_enabled validationCacheConfig = true
  ∧ DataRecord.status recC10w 0 = .ok "COMPLETED"
  ∧ recC10w.payload_hash ≠ some (get_hashed_payload validationCacheConfig eventC10w)
  ∧ ((get_record validationCacheConfig 0 storeC10w [] eventC10w).1 = .error .validationError
      ∧ alGet (get_record validationCacheConfig 0 storeC10w [] eventC10w).2.2
          recC10w.idempotency_key = some recC10w) :=
  ⟨rfl, rfl, rfl, by simp [recC10w],
   C10_amended validationCacheConfig 0 storeC10w [] eventC10w recC10w "COMPLETED"
     rfl rfl rfl (by simp [storeC10w, alGet, keyC10w]) rfl (by decide) (by simp [recC10w])⟩

/-! ### Claim C2: hash determinism and key-insertion order -/

/-- C2 (divergence at the failing input): the two mapping inputs are
structurally equal with their keys in a different insertion order; hashing
is deterministic (hashing the same input twice yields the same digest), but
with the default md5 digest the two orderings yield different digests,
because `_generate_hash` serializes with `json.dumps` in insertion order
(no `sort_keys`). -/
theorem C2_hash_order_divergence :
    structEq (.obj [("a", .int 1), ("b", .int 2)]) (.obj [("b", .int 2), ("a", .int 1)]) = true
  ∧ generate_hash defaultConfig (.obj [("a", .int 1), ("b", .int 2)])
      = generate_hash defaultConfig (.obj [("a", .int 1), ("b", .int 2)])
  ∧ generate_hash defaultConfig (.obj [("a", .int 1), ("b", .int 2)])
      ≠ generate_hash defaultConfig (.obj [("b", .int 2), ("a", .int 1)]) := by
  refine ⟨by decide, rfl, by decide⟩

/-! ### Claim C8: cache-on versus cache-off -/

@[simp] lemma completed_record_withCache (cfg : PersistenceConfig) (b : Bool)
    (now : Int) (e res : JsonValue) :
    completed_record (withCache cfg b) now e res = completed_record cfg now e res := rfl

@[simp] lemma inprogress_record_withCache (cfg : PersistenceConfig) (b : Bool)
    (now : Int) (e : JsonValue) :
    inprogress_record (withCache cfg b) now e = inprogress_record cfg now e := rfl

@[simp] lemma key_only_record_withCache (cfg : PersistenceConfig) (b : Bool)
    (e : JsonValue) :
    key_only_record (withCache cfg b) e = key_only_record cfg e := rfl

@[simp] lemma inprogress_record_key (cfg : PersistenceConfig) (now : Int) (e : JsonValue) :
    (inprogress_record cfg now e).idempotency_key = get_hashed_idempotency_key cfg e := rfl

@[simp] lemma inprogress_record_raw (cfg : PersistenceConfig) (now : Int) (e : JsonValue) :
    (inprogress_record cfg now e).status_raw = "INPROGRESS" := rfl

@[simp] lemma completed_record_key (cfg : PersistenceConfig) (now : Int) (e res : JsonValue) :
    (completed_record cfg now e res).idempotency_key = get_hashed_idempotency_key cfg e := rfl

@[simp] lemma completed_record_raw (cfg : PersistenceConfig) (now : Int) (e res : JsonValue) :
    (completed_record cfg now e res).status_raw = "COMPLETED" := rfl

@[simp] lemma key_only_record_key (cfg : PersistenceConfig) (e : JsonValue) :
    (key_only_record cfg e).idempotency_key = get_hashed_idempotency_key cfg e := rfl

lemma retrieve_from_cache_on (cfg : PersistenceConfig) (now : Int) (c : RecordMap)
    (k : String) (hon : cfg.use_local_cache = true) :
    retrieve_from_cache cfg now c k =
      match alGet c k with
      | none => (none, c)
      | some r => if r.is_expired now = false then (some r, c) else (none, alDel c k) := by
  unfold retrieve_from_cache
  rw [hon]
  simp

lemma store_put_record_ok (now : Int) (s : RecordMap) (r : DataRecord) (s2 : RecordMap)
    (h : store_put_record now s r = .ok s2) : s2 = alPut s r.idempotency_key r := by
  unfold store_put_record at h
  split at h
  · split at h
    · cases h; rfl
    · cases h
  · cases h; rfl

lemma save_inprogress_sim (cfg : PersistenceConfig) (now : Int) (e : JsonValue)
    (s c coff : RecordMap) (hwf : StoreWF s) (hsub : CacheSub c s) :
    (save_inprogress (withCache cfg true) now s c e).1
        = (save_inprogress (withCache cfg false) now s coff e).1
  ∧ (save_inprogress (withCache cfg true) now s c e).2.1
        = (save_inprogress (withCache cfg false) now s coff e).2.1
  ∧ (save_inprogress (withCache cfg false) now s coff e).2.2 = coff
  ∧ StoreWF (save_inprogress (withCache cfg true) now s c e).2.1
  ∧ CacheSub (save_inprogress (withCache cfg true) now s c e).2.2
      (save_inprogress (withCache cfg true) now s c e).2.1 := by
  have honretr := retrieve_from_cache_on (withCache cfg true) now c
      (get_hashed_idempotency_key cfg e) rfl
  have hoffretr : retrieve_from_cache (withCache cfg false) now coff
      (get_hashed_idempotency_key cfg e) = (none, coff) :=
    retrieve_from_cache_off _ _ _ _ rfl
  simp only [save_inprogress, inprogress_record_withCache, inprogress_record_key,
    hoffretr, honretr]
  cases hc : alGet c (get_hashed_idempotency_key cfg e) with
  | none =>
      dsimp only
      cases hput : store_put_record now s (inprogress_record cfg now e) with
      | ok s2 =>
          dsimp only
          have hs2 := store_put_record_ok now s _ s2 hput
          rw [inprogress_record_key] at hs2
          subst hs2
          refine ⟨rfl, rfl, rfl, ?_, ?_⟩
          · have := storeWF_put s (inprogress_record cfg now e) hwf
              (by simp [STATUS_CONSTANTS_values])
            simpa using this
          · exact cacheSub_put_store c s _ _ hsub hc
      | error err => exact ⟨rfl, rfl, rfl, hwf, hsub⟩
  | some rc =>
      dsimp only
      by_cases hx : rc.is_expired now = false
      · -- live cache hit: already-exists without touching the store
        have hsrc : alGet s (get_hashed_idempotency_key cfg e) = some rc :=
          hsub _ _ hc
        have hput : store_put_record now s (inprogress_record cfg now e)
            = .error .itemAlreadyExists := by
          unfold store_put_record
          rw [inprogress_record_key, hsrc]
          simp [hx]
        rw [if_pos hx, hput]
        exact ⟨rfl, rfl, rfl, hwf, hsub⟩
      · -- expired cache hit: evicted, then the store decides as with no cache
        rw [if_neg hx]
        dsimp only
        cases hput : store_put_record now s (inprogress_record cfg now e) with
        | ok s2 =>
            dsimp only
            have hs2 := store_put_record_ok now s _ s2 hput
            rw [inprogress_record_key] at hs2
            subst hs2
            refine ⟨rfl, rfl, rfl, ?_, ?_⟩
            · have := storeWF_put s (inprogress_record cfg now e) hwf
                (by simp [STATUS_CONSTANTS_values])
              simpa using this
            · exact cacheSub_put_store _ s _ _ (cacheSub_del_cache c s _ hsub)
                (alGet_del_self c (get_hashed_idempotency_key cfg e))
        | error err =>
            exact ⟨rfl, rfl, rfl, hwf, cacheSub_del_cache c s _ hsub⟩

lemma store_get_record_ok (s : RecordMap) (k : String) (r : DataRecord)
    (h : store_get_record s k = .ok r) : alGet s k = some r := by
  unfold store_get_record at h
  split at h
  next r2 heq => cases h; exact heq
  next heq => cases h

lemma save_success_sim (cfg : PersistenceConfig) (now : Int) (e res : JsonValue)
    (s c coff : RecordMap) (hwf : StoreWF s) (hsub : CacheSub c s) :
    (save_success (withCache cfg true) now s c e res).1
        = (save_success (withCache cfg false) now s coff e res).1
  ∧ (save_success (withCache cfg true) now s c e res).2.1
        = (save_success (withCache cfg false) now s coff e res).2.1
  ∧ (save_success (withCache cfg false) now s coff e res).2.2 = coff
  ∧ StoreWF (save_success (withCache cfg true) now s c e res).2.1
  ∧ CacheSub (save_success (withCache cfg true) now s c e res).2.2
      (save_success (withCache cfg true) now s c e res).2.1 := by
  have hraw : (completed_record cfg now e res).status_raw ∈ STATUS_CONSTANTS_values := by
    simp [STATUS_CONSTANTS_values]
  have hsave := save_to_cache_on (withCache cfg true) now c
      (completed_record cfg now e res) rfl hraw
  rw [if_neg (by simp)] at hsave
  have hsaveoff : save_to_cache (withCache cfg false) now coff
      (completed_record cfg now e res) = .ok coff :=
    save_to_cache_off _ _ _ _ rfl
  simp only [save_success, completed_record_withCache, store_update_record,
    hsave, hsaveoff]
  refine ⟨by trivial, by trivial, by trivial, ?_, ?_⟩
  · exact storeWF_put s _ hwf hraw
  · exact cacheSub_put_both c s _ _ hsub

lemma delete_record_sim (cfg : PersistenceConfig) (e : JsonValue)
    (s c coff : RecordMap) (hwf : StoreWF s) (hsub : CacheSub c s) :
    (delete_record (withCache cfg true) s c e).1
        = (delete_record (withCache cfg false) s coff e).1
  ∧ (delete_record (withCache cfg true) s c e).2.1
        = (delete_record (withCache cfg false) s coff e).2.1
  ∧ (delete_record (withCache cfg false) s coff e).2.2 = coff
  ∧ StoreWF (delete_record (withCache cfg true) s c e).2.1
  ∧ CacheSub (delete_record (withCache cfg true) s c e).2.2
      (delete_record (withCache cfg true) s c e).2.1 := by
  have hoffdel : delete_from_cache (withCache cfg false) coff
      (get_hashed_idempotency_key cfg e) = coff :=
    delete_from_cache_off _ _ _ rfl
  have hondel : delete_from_cache (withCache cfg true) c
      (get_hashed_idempotency_key cfg e) = alDel c (get_hashed_idempotency_key cfg e) := by
    unfold delete_from_cache
    simp
  simp only [delete_record, key_only_record_withCache, key_only_record_key,
    store_delete_record, hoffdel, hondel]
  exact ⟨by trivial, by trivial, by trivial, storeWF_del s _ hwf, cacheSub_del_both c s _ hsub⟩

lemma get_record_sim (cfg : PersistenceConfig) (now : Int) (e : JsonValue)
    (s c coff : RecordMap) (hwf : StoreWF s) (hsub : CacheSub c s) :
    (get_record (withCache cfg true) now s c e).1
        = (get_record (withCache cfg false) now s coff e).1
  ∧ (get_record (withCache cfg true) now s c e).2.1
        = (get_record (withCache cfg false) now s coff e).2.1
  ∧ (get_record (withCache cfg false) now s coff e).2.2 = coff
  ∧ StoreWF (get_record (withCache cfg true) now s c e).2.1
  ∧ CacheSub (get_record (withCache cfg true) now s c e).2.2
      (get_record (withCache cfg true) now s c e).2.1 := by
  have honretr := retrieve_from_cache_on (withCache cfg true) now c
      (get_hashed_idempotency_key cfg e) rfl
  have hoffretr : retrieve_from_cache (withCache cfg false) now coff
      (get_hashed_idempotency_key cfg e) = (none, coff) :=
    retrieve_from_cache_off _ _ _ _ rfl
  have hscoff : ∀ r2 : DataRecord, save_to_cache (withCache cfg false) now coff r2 = .ok coff :=
    fun r2 => save_to_cache_off _ _ _ _ rfl
  simp only [get_record, get_hashed_idempotency_key_withCache, validate_payload_withCache,
    hoffretr, honretr, hscoff]
  cases hc : alGet c (get_hashed_idempotency_key cfg e) with
  | none =>
      dsimp only
      cases hfetch : store_get_record s (get_hashed_idempotency_key cfg e) with
      | error err => exact ⟨rfl, rfl, rfl, hwf, hsub⟩
      | ok r =>
          dsimp only
          obtain ⟨hraw, hkey⟩ := storeWF_get s _ r hwf (store_get_record_ok s _ r hfetch)
          have hsave := save_to_cache_on (withCache cfg true) now c r rfl hraw
          by_cases hcond : r.is_expired now = false ∧ r.status_raw = "INPROGRESS"
          · rw [if_pos hcond] at hsave
            rw [hsave]
            dsimp only
            cases hv : validate_payload cfg e r <;> exact ⟨rfl, rfl, rfl, hwf, hsub⟩
          · rw [if_neg hcond] at hsave
            rw [hsave]
            dsimp only
            have hsub2 : CacheSub (alPut c r.idempotency_key r) s := by
              rw [hkey]
              exact cacheSub_put_cache_hit c s _ r hsub (store_get_record_ok s _ r hfetch)
            cases hv : validate_payload cfg e r <;> exact ⟨rfl, rfl, rfl, hwf, hsub2⟩
  | some rc =>
      dsimp only
      have hsrc : alGet s (get_hashed_idempotency_key cfg e) = some rc := hsub _ _ hc
      have hfetch : store_get_record s (get_hashed_idempotency_key cfg e) = .ok rc := by
        unfold store_get_record
        rw [hsrc]
      by_cases hx : rc.is_expired now = false
      · rw [if_pos hx]
        dsimp only
        rw [hfetch]
        dsimp only
        cases hv : validate_payload cfg e rc <;> exact ⟨rfl, rfl, rfl, hwf, hsub⟩
      · rw [if_neg hx]
        dsimp only
        rw [hfetch]
        dsimp only
        obtain ⟨hraw, hkey⟩ := storeWF_get s _ rc hwf hsrc
        have hsave := save_to_cache_on (withCache cfg true) now
            (alDel c (get_hashed_idempotency_key cfg e)) rc rfl hraw
        have hxx : ¬(rc.is_expired now = false ∧ rc.status_raw = "INPROGRESS") := by
          intro hcontra
          exact hx hcontra.1
        rw [if_neg hxx] at hsave
        rw [hsave]
        dsimp only
        have hsub2 : CacheSub (alPut (alDel c (get_hashed_idempotency_key cfg e))
            rc.idempotency_key rc) s := by
          rw [hkey]
          exact cacheSub_put_cache_hit _ s _ rc (cacheSub_del_cache c s _ hsub) hsrc
        cases hv : validate_payload cfg e rc <;> exact ⟨rfl, rfl, rfl, hwf, hsub2⟩

lemma runOp_sim (cfg : PersistenceConfig) (op : IdemOp) (s c coff : RecordMap)
    (hwf : StoreWF s) (hsub : CacheSub c s) :
    (runOp (withCache cfg true) s c op).1 = (runOp (withCache cfg false) s coff op).1
  ∧ (runOp (withCache cfg true) s c op).2.1 = (runOp (withCache cfg false) s coff op).2.1
  ∧ StoreWF (runOp (withCache cfg true) s c op).2.1
  ∧ CacheSub (runOp (withCache cfg true) s c op).2.2 (runOp (withCache cfg true) s c op).2.1 := by
  cases op with
  | opSaveInprogress now e =>
      have h := save_inprogress_sim cfg now e s c coff hwf hsub
      rcases hres1 : save_inprogress (withCache cfg true) now s c e with ⟨o1, s1, c1⟩
      rcases hres2 : save_inprogress (withCache cfg false) now s coff e with ⟨o2, s2, c2⟩
      rw [hres1, hres2] at h
      obtain ⟨h1, h2, _, h4, h5⟩ := h
      dsimp only at h1 h2 h4 h5
      subst h1
      subst h2
      simp only [runOp, hres1, hres2]
      cases o1 with
      | ok u => exact ⟨rfl, rfl, h4, h5⟩
      | error err => exact ⟨rfl, rfl, h4, h5⟩
  | opSaveSuccess now e res =>
      have h := save_success_sim cfg now e res s c coff hwf hsub
      rcases hres1 : save_success (withCache cfg true) now s c e res with ⟨o1, s1, c1⟩
      rcases hres2 : save_success (withCache cfg false) now s coff e res with ⟨o2, s2, c2⟩
      rw [hres1, hres2] at h
      obtain ⟨h1, h2, _, h4, h5⟩ := h
      dsimp only at h1 h2 h4 h5
      subst h1
      subst h2
      simp only [runOp, hres1, hres2]
      cases o1 with
      | ok u => exact ⟨rfl, rfl, h4, h5⟩
      | error err => exact ⟨rfl, rfl, h4, h5⟩
  | opDeleteRecord e =>
      have h := delete_record_sim cfg e s c coff hwf hsub
      rcases hres1 : delete_record (withCache cfg true) s c e with ⟨o1, s1, c1⟩
      rcases hres2 : delete_record (withCache cfg false) s coff e with ⟨o2, s2, c2⟩
      rw [hres1, hres2] at h
      obtain ⟨h1, h2, _, h4, h5⟩ := h
      dsimp only at h1 h2 h4 h5
      subst h1
      subst h2
      simp only [runOp, hres1, hres2]
      cases o1 with
      | ok u => exact ⟨rfl, rfl, h4, h5⟩
      | error err => exact ⟨rfl, rfl, h4, h5⟩
  | opGetRecord now e =>
      have h := get_record_sim cfg now e s c coff hwf hsub
      rcases hres1 : get_record (withCache cfg true) now s c e with ⟨o1, s1, c1⟩
      rcases hres2 : get_record (withCache cfg false) now s coff e with ⟨o2, s2, c2⟩
      rw [hres1, hres2] at h
      obtain ⟨h1, h2, _, h4, h5⟩ := h
      dsimp only at h1 h2 h4 h5
      subst h1
      subst h2
      simp only [runOp, hres1, hres2]
      cases o1 with
      | ok r => exact ⟨rfl, rfl, h4, h5⟩
      | error err => exact ⟨rfl, rfl, h4, h5⟩

lemma runOps_sim (cfg : PersistenceConfig) (ops : List IdemOp) (s c coff : RecordMap)
    (hwf : StoreWF s) (hsub : CacheSub c s) :
    (runOps (withCache cfg true) s c ops).1 = (runOps (withCache cfg false) s coff ops).1 := by
  induction ops generalizing s c coff with
  | nil => rfl
  | cons op ops ih =>
      obtain ⟨h1, h2, h3, h4⟩ := runOp_sim cfg op s c coff hwf hsub
      rcases hres1 : runOp (withCache cfg true) s c op with ⟨o1, s1, c1⟩
      rcases hres2 : runOp (withCache cfg false) s coff op with ⟨o2, s2, c2⟩
      rw [hres1, hres2] at h1 h2
      rw [hres1] at h3 h4
      dsimp only at h1 h2 h3 h4
      subst h1
      subst h2
      simp only [runOps, hres1, hres2]
      rw [ih s1 c1 c2 h3 h4]

/-- C8, counterexample: over a store holding a record whose raw status is
the out-of-set `"UNKNOWN"`, the same `get_record` call raises
`IdempotencyInvalidStatusError` with the local cache enabled (the
cache-write evaluates the derived status) but returns the record with the
cache disabled — an observable outcome change from toggling the cache. -/
theorem C8_counterexample :
    (get_record (withCache defaultConfig true) 0 storeC8 [] eventC8).1
        = .error (.invalidStatus "UNKNOWN")
  ∧ (get_record (withCache defaultConfig false) 0 storeC8 [] eventC8).1
        = .ok unknownStatusRecord := by
  refine ⟨rfl, rfl⟩

/-- C8, amended: over a well-formed store — every record carries its storage
key in `idempotency_key` and a raw status among the three known constants —
disabling the local cache changes no observable outcome: every sequence of
`save_inprogress` / `save_success` / `delete_record` / `get_record` calls
produces the same list of results and errors with the cache enabled
(starting empty) as with it disabled. -/
theorem C8_amended (cfg : PersistenceConfig) (store : RecordMap) (ops : List IdemOp)
    (hwf : StoreWF store) :
    (runOps (withCache cfg true) store [] ops).1
      = (runOps (withCache cfg false) store [] ops).1 :=
  runOps_sim cfg ops store [] [] hwf (cacheSub_nil store)

/-- C8, witness: a two-call sequence (a fetch, then a fresh attempt) over a
well-formed one-record store yields the same outcomes cache-on and
cache-off, through `C8_amended`. -/
theorem C8_amended_witness :
    StoreWF [("k", ⟨"k", "COMPLETED", none, "", none⟩)]
  ∧ (runOps (withCache defaultConfig true) [("k", ⟨"k", "COMPLETED", none, "", none⟩)] []
        [IdemOp.opGetRecord 0 eventC8, IdemOp.opSaveInprogress 0 eventC8]).1
      = (runOps (withCache defaultConfig false) [("k", ⟨"k", "COMPLETED", none, "", none⟩)] []
        [IdemOp.opGetRecord 0 eventC8, IdemOp.opSaveInprogress 0 eventC8]).1 :=
  ⟨by unfold StoreWF; decide,
   C8_amended defaultConfig [("k", ⟨"k", "COMPLETED", none, "", none⟩)]
     [IdemOp.opGetRecord 0 eventC8, IdemOp.opSaveInprogress 0 eventC8] (by unfold StoreWF; decide)⟩
